import Mathlib

/-!
Verification development for the DetectaBias application
(`src/detectabias.py`), a Streamlit tool that extracts text from an
uploaded PDF, sends it to a generative-AI endpoint and renders the
JSON response.  The embedding below models, over `List Char` strings:

* `jsonLoads` — the behaviour of Python's `json.loads` on a `str`
  input (external standard-library dependency of the code): RFC 8259
  JSON values with the Python extras `NaN`, `Infinity`, `-Infinity`,
  decoded in strict mode (unescaped control characters in strings are
  rejected), duplicate object keys resolved last-wins by `objGet`.
  Numbers are kept as their validated lexemes: the code never
  inspects a numeric value except for truthiness and display.
* `extractBraces` — the behaviour of
  `re.search(r'\{.*\}', json_str, re.DOTALL)` (line 132): the greedy
  leftmost match runs from the first `{` that has some `}` after it
  up to the last `}` of the whole string.
* `parse_and_display_results` (lines 120-217) — the two-stage
  fallback decode and the rendering pass, with Python exceptions made
  explicit (`PyRes`/`tryExcept`) so the `except` coverage is a
  provable fact rather than an assumption.
* the module-level UI flows the claims mention: the analyze button
  handler (lines 262-269), the save-as-PDF print block (lines
  284-334) and the upload flow (lines 251-262, 337-338).
-/

/-- The character `{` (written via its code point throughout). -/
def lbrace : Char := Char.ofNat 123

/-- The character `}` (written via its code point throughout). -/
def rbrace : Char := Char.ofNat 125

/-- Python JSON values as decoded by `json.loads`.  A number is kept as
its validated lexeme (the code only ever formats or truth-tests it). -/
inductive Json where
  | null : Json
  | bool : Bool → Json
  | num : List Char → Json
  | str : List Char → Json
  | arr : List Json → Json
  | obj : List (List Char × Json) → Json

/-- JSON insignificant whitespace, as skipped by Python's decoder. -/
def jsonWs (c : Char) : Bool :=
  c = ' ' || c = '\t' || c = '\n' || c = '\r'

/-- Drop leading JSON whitespace. -/
def skipWs : List Char → List Char
  | [] => []
  | c :: rest => if jsonWs c then skipWs rest else c :: rest

/-- Value of a hexadecimal digit, if any. -/
def hexVal (c : Char) : Option Nat :=
  if '0' ≤ c ∧ c ≤ '9' then some (c.toNat - 48)
  else if 'a' ≤ c ∧ c ≤ 'f' then some (c.toNat - 87)
  else if 'A' ≤ c ∧ c ≤ 'F' then some (c.toNat - 55)
  else none

/-- Single-character JSON string escapes. -/
def escChar (c : Char) : Option Char :=
  if c = '"' then some '"'
  else if c = '\\' then some '\\'
  else if c = '/' then some '/'
  else if c = 'b' then some (Char.ofNat 8)
  else if c = 'f' then some (Char.ofNat 12)
  else if c = 'n' then some '\n'
  else if c = 'r' then some '\r'
  else if c = 't' then some '\t'
  else none

/-- Parse the body of a JSON string after the opening quote: returns the
decoded characters and the input after the closing quote.  Strict mode:
unescaped control characters are rejected; `\uXXXX` decodes the given
code point (surrogate-pair combination is not modelled; the program
never exercises it). -/
def parseStrBody : List Char → Option (List Char × List Char)
  | [] => none
  | '"' :: rest => some ([], rest)
  | '\\' :: 'u' :: h1 :: h2 :: h3 :: h4 :: rest =>
    match hexVal h1, hexVal h2, hexVal h3, hexVal h4 with
    | some a, some b, some c, some d =>
      match parseStrBody rest with
      | some (cs, r) => some (Char.ofNat (a * 4096 + b * 256 + c * 16 + d) :: cs, r)
      | none => none
    | _, _, _, _ => none
  | '\\' :: e :: rest =>
    match escChar e with
    | some d =>
      match parseStrBody rest with
      | some (cs, r) => some (d :: cs, r)
      | none => none
    | none => none
  | c :: rest =>
    if c.toNat < 32 then none
    else
      match parseStrBody rest with
      | some (cs, r) => some (c :: cs, r)
      | none => none

/-- Longest digit run at the front of the input. -/
def spanDigits : List Char → List Char × List Char
  | [] => ([], [])
  | c :: rest =>
    if c.isDigit then
      match spanDigits rest with
      | (ds, r) => (c :: ds, r)
    else ([], c :: rest)

/-- Optional fraction part `.digits` of a JSON number. -/
def parseFracPart : List Char → List Char × List Char
  | '.' :: c :: rest =>
    if c.isDigit then
      match spanDigits rest with
      | (ds, r) => ('.' :: c :: ds, r)
    else ([], '.' :: c :: rest)
  | s => ([], s)

/-- Optional exponent part `[eE][+-]?digits` of a JSON number. -/
def parseExpPart (s : List Char) : List Char × List Char :=
  match s with
  | e :: rest =>
    if e = 'e' ∨ e = 'E' then
      match rest with
      | c :: rest2 =>
        if c = '+' ∨ c = '-' then
          match rest2 with
          | d :: rest3 =>
            if d.isDigit then
              match spanDigits rest3 with
              | (ds, r) => (e :: c :: d :: ds, r)
            else ([], s)
          | [] => ([], s)
        else if c.isDigit then
          match spanDigits rest2 with
          | (ds, r) => (e :: c :: ds, r)
        else ([], s)
      | [] => ([], s)
    else ([], s)
  | [] => ([], s)

/-- Parse a JSON number lexeme `-?(0|[1-9][0-9]*)(\.[0-9]+)?([eE][+-]?[0-9]+)?`. -/
def parseNumber (s : List Char) : Option (List Char × List Char) :=
  let signed : List Char × List Char :=
    match s with
    | '-' :: rest => (['-'], rest)
    | _ => ([], s)
  match signed with
  | (sign, s1) =>
    match s1 with
    | c :: rest =>
      if c = '0' then
        match parseFracPart rest with
        | (fr, r1) =>
          match parseExpPart r1 with
          | (ex, r2) => some (sign ++ ['0'] ++ fr ++ ex, r2)
      else if c.isDigit then
        match spanDigits rest with
        | (ds, r0) =>
          match parseFracPart r0 with
          | (fr, r1) =>
            match parseExpPart r1 with
            | (ex, r2) => some (sign ++ (c :: ds) ++ fr ++ ex, r2)
      else none
    | [] => none

/-- Match a literal word at the front of the input. -/
def dropLit : List Char → List Char → Option (List Char)
  | [], s => some s
  | _ :: _, [] => none
  | l :: ls, c :: cs => if l = c then dropLit ls cs else none

/-- One step of the object-member loop of the decoder: `pv` decodes one
JSON value (the recursive parser at the previous fuel). -/
def membersLoop (pv : List Char → Option (Json × List Char)) :
    Nat → List Char → List (List Char × Json) → Option (Json × List Char)
  | 0, _, _ => none
  | Nat.succ n, s, acc =>
    match s with
    | '"' :: rest =>
      match parseStrBody rest with
      | some (key, r1) =>
        match skipWs r1 with
        | ':' :: r2 =>
          match pv r2 with
          | some (v, r3) =>
            match skipWs r3 with
            | e :: r4 =>
              if e = ',' then membersLoop pv n (skipWs r4) (acc ++ [(key, v)])
              else if e = rbrace then some (Json.obj (acc ++ [(key, v)]), r4)
              else none
            | [] => none
          | none => none
        | _ => none
      | none => none
    | _ => none

/-- One step of the array-element loop of the decoder. -/
def elemsLoop (pv : List Char → Option (Json × List Char)) :
    Nat → List Char → List Json → Option (Json × List Char)
  | 0, _, _ => none
  | Nat.succ n, s, acc =>
    match pv s with
    | some (v, r1) =>
      match skipWs r1 with
      | e :: r2 =>
        if e = ',' then elemsLoop pv n r2 (acc ++ [v])
        else if e = ']' then some (Json.arr (acc ++ [v]), r2)
        else none
      | [] => none
    | none => none

/-- Fuel-indexed JSON value parser: decodes one value and returns the
remaining input.  The fuel only bounds nesting depth; `jsonLoads`
supplies more than enough. -/
def parseVal : Nat → List Char → Option (Json × List Char)
  | 0, _ => none
  | Nat.succ n, s =>
    match skipWs s with
    | [] => none
    | c :: rest =>
      if c = lbrace then
        match skipWs rest with
        | d :: r2 =>
          if d = rbrace then some (Json.obj [], r2)
          else membersLoop (fun t => parseVal n t) (d :: r2).length.succ (d :: r2) []
        | [] => none
      else if c = '[' then
        match skipWs rest with
        | d :: r2 =>
          if d = ']' then some (Json.arr [], r2)
          else elemsLoop (fun t => parseVal n t) (d :: r2).length.succ (d :: r2) []
        | [] => none
      else if c = '"' then
        match parseStrBody rest with
        | some (cs, r) => some (Json.str cs, r)
        | none => none
      else
        match dropLit ('t' :: 'r' :: 'u' :: 'e' :: []) (c :: rest) with
        | some r => some (Json.bool true, r)
        | none =>
        match dropLit ('f' :: 'a' :: 'l' :: 's' :: 'e' :: []) (c :: rest) with
        | some r => some (Json.bool false, r)
        | none =>
        match dropLit ('n' :: 'u' :: 'l' :: 'l' :: []) (c :: rest) with
        | some r => some (Json.null, r)
        | none =>
        match dropLit ('N' :: 'a' :: 'N' :: []) (c :: rest) with
        | some r => some (Json.num ('N' :: 'a' :: 'N' :: []), r)
        | none =>
        match dropLit ('I' :: 'n' :: 'f' :: 'i' :: 'n' :: 'i' :: 't' :: 'y' :: []) (c :: rest) with
        | some r => some (Json.num ('I' :: 'n' :: 'f' :: []), r)
        | none =>
        match dropLit ('-' :: 'I' :: 'n' :: 'f' :: 'i' :: 'n' :: 'i' :: 't' :: 'y' :: []) (c :: rest) with
        | some r => some (Json.num ('-' :: 'I' :: 'n' :: 'f' :: []), r)
        | none =>
        match parseNumber (c :: rest) with
        | some (lex, r) => some (Json.num lex, r)
        | none => none

/-- Model of Python `json.loads` on a `str`: decode one value, then only
whitespace may remain (otherwise "Extra data").  `none` models a raised
`json.JSONDecodeError`. -/
def jsonLoads (s : List Char) : Option Json :=
  match parseVal s.length.succ s with
  | some (v, rest) => if skipWs rest = [] then some v else none
  | none => none

/-- Prefix of the input up to (and including) its last `}`, if any:
the greedy tail of the regex match. -/
def upToLast : List Char → Option (List Char)
  | [] => none
  | c :: rest =>
    match upToLast rest with
    | some t => some (c :: t)
    | none => if c = rbrace then some [c] else none

/-- Model of `re.search(r'\{.*\}', json_str, re.DOTALL)` (line 132):
the leftmost-greedy match starts at the first `{` that has a `}`
somewhere after it and ends at the last `}` of the string. -/
def extractBraces : List Char → Option (List Char)
  | [] => none
  | c :: rest =>
    if c = lbrace then
      match upToLast rest with
      | some t => some (c :: t)
      | none => extractBraces rest
    else extractBraces rest

/-- Does the string contain a `{` followed (strictly later) by a `}`? -/
def hasBracePair : List Char → Bool
  | [] => false
  | c :: rest =>
    if c = lbrace ∧ rbrace ∈ rest then true else hasBracePair rest

/-- Python `dict` lookup for the dictionary built by `json.loads` from
an ordered member list: on duplicate keys the last value wins. -/
def objGet : List (List Char × Json) → List Char → Option Json
  | [], _ => none
  | kv :: rest, key =>
    match objGet rest key with
    | some v => some v
    | none => if kv.1 = key then some kv.2 else none

/-- Truthiness of a decoded number lexeme: zero mantissas (and nothing
else) are falsy; `NaN`/`Infinity` (no digits) are truthy. -/
def numLexTruthy (lex : List Char) : Bool :=
  let mant := lex.takeWhile (fun c => ¬ (c = 'e' ∨ c = 'E'))
  if mant.any (fun c => c.isDigit) then
    mant.any (fun c => c.isDigit && ¬ c = '0')
  else true

/-- Python truthiness of a decoded JSON value. -/
def truthy : Json → Bool
  | Json.null => false
  | Json.bool b => b
  | Json.num lex => numLexTruthy lex
  | Json.str s => ¬ s.isEmpty
  | Json.arr xs => ¬ xs.isEmpty
  | Json.obj kvs => ¬ kvs.isEmpty

/-- Python exceptions distinguished by the program's `except` clauses. -/
inductive PyExn where
  | jsonDecodeError : PyExn
  | keyError : PyExn
  | attributeError : PyExn
  | typeError : PyExn

/-- Result of running a piece of Python code: a value, or a raised
exception propagating out of it. -/
inductive PyRes (α : Type) where
  | val : α → PyRes α
  | raised : PyExn → PyRes α

/-- A `try`/`except` block: the handler runs only when the raised
exception matches the `except` clause; otherwise it propagates. -/
def tryExcept {α : Type} (body : PyRes α) (catches : PyExn → Bool)
    (handler : PyExn → PyRes α) : PyRes α :=
  match body with
  | PyRes.val a => PyRes.val a
  | PyRes.raised e => if catches e then handler e else PyRes.raised e

/-- Which exceptions an `except json.JSONDecodeError` clause catches. -/
def isDecodeErr : PyExn → Bool
  | PyExn.jsonDecodeError => true
  | _ => false

/-- `json.loads` with its exception made explicit: on a `str` argument
it raises exactly `json.JSONDecodeError` on failure. -/
def jsonLoadsPy (s : List Char) : PyRes Json :=
  match jsonLoads s with
  | some v => PyRes.val v
  | none => PyRes.raised PyExn.jsonDecodeError

/-- The key `"tipo"` of a finding. -/
def tipoKey : List Char := "tipo".data

/-- The key `"analise"` of the record. -/
def analiseKey : List Char := "analise".data

/-- The default label used when a finding has no `tipo` field. -/
def desconhecidoLabel : List Char := "desconhecido".data

/-- Python `str.split(',')`: split at every comma, keeping empty parts
(the result is never empty). -/
def pySplit : List Char → List (List Char)
  | [] => [[]]
  | c :: rest =>
    if c = ',' then [] :: pySplit rest
    else
      match pySplit rest with
      | p :: ps => (c :: p) :: ps
      | [] => [[c]]

/-- Whitespace stripped by Python `str.strip()` (ASCII part; the
program only ever has ASCII blanks around labels). -/
def pyWs (c : Char) : Bool :=
  c = ' ' || c = '\t' || c = '\n' || c = '\r' || c = Char.ofNat 11 || c = Char.ofNat 12

/-- Python `str.strip()`. -/
def pyStrip (s : List Char) : List Char :=
  ((s.dropWhile pyWs).reverse.dropWhile pyWs).reverse

/-- `[t.strip() for t in field.split(',')]` (line 162-163). -/
def splitStrip (t : List Char) : List (List Char) :=
  (pySplit t).map pyStrip

/-- `item.get('tipo', 'desconhecido').split(',')` stripped (lines
162-163), with the exceptions it can raise: `.get` on a non-dict item
and `.split` on a non-string value are `AttributeError`s. -/
def itemBiases : Json → Except PyExn (List (List Char))
  | Json.obj kvs =>
    match objGet kvs tipoKey with
    | none => Except.ok (splitStrip desconhecidoLabel)
    | some (Json.str t) => Except.ok (splitStrip t)
    | some _ => Except.error PyExn.attributeError
  | _ => Except.error PyExn.attributeError

/-- The chart loop (lines 160-163): collect every label of every item
in order; the first failing item aborts the loop. -/
def tallyBiases : List Json → Except PyExn (List (List Char))
  | [] => Except.ok []
  | item :: rest =>
    match itemBiases item with
    | Except.error e => Except.error e
    | Except.ok ls =>
      match tallyBiases rest with
      | Except.error e => Except.error e
      | Except.ok more => Except.ok (ls ++ more)

/-- `for item in analysis_list`: what Python iteration yields.  Lists
yield their items; strings yield one-character strings; dicts yield
their keys; other values raise `TypeError`.  (Key order/uniqueness for
dicts is immaterial: every yielded string fails the body anyway.) -/
def iterItems : Json → Except PyExn (List Json)
  | Json.arr xs => Except.ok xs
  | Json.str s => Except.ok (s.map (fun c => Json.str [c]))
  | Json.obj kvs => Except.ok (kvs.map (fun kv => Json.str kv.1))
  | _ => Except.error PyExn.typeError

/-- One detailed-findings entry (lines 193-204): `item['tipo']` raises
`KeyError` when absent, `.capitalize()` raises `AttributeError` on a
non-string, indexing a non-dict raises `TypeError`; the remaining
fields are read with `.get` defaults and cannot fail. -/
def detailItem : Json → Except PyExn Unit
  | Json.obj kvs =>
    match objGet kvs tipoKey with
    | some (Json.str _) => Except.ok ()
    | some _ => Except.error PyExn.attributeError
    | none => Except.error PyExn.keyError
  | _ => Except.error PyExn.typeError

/-- The detailed-findings loop (lines 193-204). -/
def detailLoop : List Json → Except PyExn Unit
  | [] => Except.ok ()
  | item :: rest =>
    match detailItem item with
    | Except.ok _ => detailLoop rest
    | Except.error e => Except.error e

/-- The display pass over a decoded record (lines 150-213).
`data.get` on a non-dict raises `AttributeError`; the metric, summary
and rewritten-document fields are read with `.get` defaults and cannot
fail; the chart runs only when `analise` is truthy, and the detailed
loop runs under the same truthiness test (lines 158, 190-192).  On
success the record itself is returned (line 213). -/
def displayBody (data : Json) : Except PyExn Json :=
  match data with
  | Json.obj kvs =>
    let analise := (objGet kvs analiseKey).getD (Json.arr [])
    if truthy analise then
      match iterItems analise with
      | Except.error e => Except.error e
      | Except.ok items =>
        match tallyBiases items with
        | Except.error e => Except.error e
        | Except.ok _ =>
          match detailLoop items with
          | Except.error e => Except.error e
          | Except.ok _ => Except.ok data
    else Except.ok data
  | _ => Except.error PyExn.attributeError

/-- Lines 123-145: obtain `data`, or return `None` early.  The outer
`try` decodes the whole string and its `except json.JSONDecodeError`
clause regex-extracts the brace block and re-decodes it under a second
such clause; either terminal failure reports and returns `None`. -/
def loadData (s : List Char) : PyRes (Option Json) :=
  tryExcept
    (match jsonLoadsPy s with
     | PyRes.val d => PyRes.val (some d)
     | PyRes.raised e => PyRes.raised e)
    isDecodeErr
    (fun _ =>
      match extractBraces s with
      | some cleaned =>
        tryExcept
          (match jsonLoadsPy cleaned with
           | PyRes.val d => PyRes.val (some d)
           | PyRes.raised e => PyRes.raised e)
          isDecodeErr
          (fun _ => PyRes.val none)
      | none => PyRes.val none)

/-- `parse_and_display_results` (lines 120-217): decode through the
two-stage fallback, then display under a broad `except Exception`
returning `None` (lines 215-217). -/
def parse_and_display_results (s : List Char) : PyRes (Option Json) :=
  match loadData s with
  | PyRes.raised e => PyRes.raised e
  | PyRes.val none => PyRes.val none
  | PyRes.val (some data) =>
    tryExcept
      (match displayBody data with
       | Except.ok d => PyRes.val (some d)
       | Except.error e => PyRes.raised e)
      (fun _ => true)
      (fun _ => PyRes.val none)

/-- Which stage of the Response Parser settles the input (spec §4.3):
strict whole-string decode, brace-extract re-decode, corrupted
extract, or no brace block at all. -/
inductive ParseOutcome where
  | stage1 : Json → ParseOutcome
  | stage2 : Json → ParseOutcome
  | corrupted : ParseOutcome
  | noJson : ParseOutcome

/-- The staged view of lines 123-145. -/
def parseStages (s : List Char) : ParseOutcome :=
  match jsonLoads s with
  | some d => ParseOutcome.stage1 d
  | none =>
    match extractBraces s with
    | some t =>
      match jsonLoads t with
      | some d => ParseOutcome.stage2 d
      | none => ParseOutcome.corrupted
    | none => ParseOutcome.noJson

/-- The record a stage outcome carries, if any. -/
def stageRecord : ParseOutcome → Option Json
  | ParseOutcome.stage1 d => some d
  | ParseOutcome.stage2 d => some d
  | _ => none

/-- The session value an assignment receives from a Python call: a
raised exception aborts the script run before the assignment, leaving
the previously stored value in place. -/
def pyResultValue : PyRes (Option Json) → Option Json
  | PyRes.val r => r
  | PyRes.raised _ => none

/-- The analyze-button handler (lines 262-269): it first stores `None`
(line 263), then calls the model (modelled by `callResult`: `none` is
a failed call, which `analyze_with_gemini` surfaces as `None`), and
only a truthy (non-empty) response string is parsed and stored.  A
raised exception inside the handler leaves the cleared `None` in
place. -/
def analyzeAction (prev : Option Json) (callResult : Option (List Char)) : Option Json :=
  let cleared : Option Json := none
  match callResult with
  | some s => if s.isEmpty then cleared else pyResultValue (parse_and_display_results s)
  | none => cleared

/-- What one render cycle of the print block emits. -/
structure PrintCycle where
  cssEmitted : Bool
  triggerEmitted : Bool
  printingAfter : Bool

/-- The save-as-PDF block (lines 284-334) during one script run: a
click sets the `printing` flag (line 286); while the flag holds, the
print CSS and the delayed `window.print` trigger are emitted (lines
291-331) and the flag is reset (line 334) before the run ends. -/
def printBlock (printing : Bool) (clicked : Bool) : PrintCycle :=
  let p := if clicked then true else printing
  if p then { cssEmitted := true, triggerEmitted := true, printingAfter := false }
  else { cssEmitted := false, triggerEmitted := false, printingAfter := p }

/-- Iterated render cycles of the print block: total number of print
triggers emitted and the final flag value. -/
def printTrace : Bool → List Bool → Nat × Bool
  | p, [] => (0, p)
  | p, c :: cs =>
    match printBlock p c with
    | cyc =>
      match printTrace cyc.printingAfter cs with
      | (n, f) => ((if cyc.triggerEmitted then 1 else 0) + n, f)

/-- Observable outcome of the upload flow for one extracted text. -/
structure UploadOutcome where
  warnedEmpty : Bool
  analyzeOffered : Bool
  geminiCalled : Bool

/-- The upload flow (lines 251-262 and 337-338): the extracted text is
stored, and only a truthy (non-empty) stored text renders the analyze
button — whose click invokes `analyze_with_gemini`; an empty text goes
to the `st.warning` branch instead. -/
def uploadFlow (extracted : List Char) (analyzeClicked : Bool) : UploadOutcome :=
  if ¬ extracted.isEmpty then
    { warnedEmpty := false, analyzeOffered := true, geminiCalled := analyzeClicked }
  else
    { warnedEmpty := true, analyzeOffered := false, geminiCalled := false }

/-- The key `"porcentagem_vies"`. -/
def porcentagemKey : List Char := "porcentagem_vies".data

/-- The key `"relatorio_resumo"`. -/
def relatorioKey : List Char := "relatorio_resumo".data

/-- The key `"texto_reescrito"`. -/
def textoKey : List Char := "texto_reescrito".data

/-- The key `"trecho"`. -/
def trechoKey : List Char := "trecho".data

/-- The key `"explicacao"`. -/
def explicacaoKey : List Char := "explicacao".data

/-- The key `"sugestao"`. -/
def sugestaoKey : List Char := "sugestao".data

/-- Is the looked-up value present and a string? -/
def isStrVal : Option Json → Bool
  | some (Json.str _) => true
  | _ => false

/-- Is the looked-up value present and a number? -/
def isNumVal : Option Json → Bool
  | some (Json.num _) => true
  | _ => false

/-- One finding of the schema announced in the prompt (lines 89-100):
an object with string fields `tipo`, `trecho`, `explicacao`,
`sugestao`. -/
def findingMatches : Json → Bool
  | Json.obj kvs =>
    isStrVal (objGet kvs tipoKey) && isStrVal (objGet kvs trechoKey) &&
    isStrVal (objGet kvs explicacaoKey) && isStrVal (objGet kvs sugestaoKey)
  | _ => false

/-- The expected response schema announced in the prompt (lines
85-103): an object with an integer `porcentagem_vies`, string
`relatorio_resumo` and `texto_reescrito`, and a list `analise` of
findings. -/
def matchesSchema : Json → Bool
  | Json.obj kvs =>
    isNumVal (objGet kvs porcentagemKey) &&
    isStrVal (objGet kvs relatorioKey) &&
    (match objGet kvs analiseKey with
     | some (Json.arr items) => items.all findingMatches
     | _ => false) &&
    isStrVal (objGet kvs textoKey)
  | _ => false

/-- All-whitespace string (in the sense of `str.strip`). -/
def allWs (l : List Char) : Bool := l.all pyWs

/-- Comma-free string. -/
def noComma (l : List Char) : Bool := ¬ (',' ∈ l)

/-- Does a finding carry a present, string-valued `tipo`?  (Exactly
what the detailed-findings loop needs to not raise.) -/
def itemHasStrTipo : Json → Bool
  | Json.obj kvs => isStrVal (objGet kvs tipoKey)
  | _ => false

/-- Surround each part with the corresponding pads. -/
def pad3 : List (List Char) → List (List Char) → List (List Char) → List (List Char)
  | l :: ls, p :: ps, r :: rs => (l ++ p ++ r) :: pad3 ls ps rs
  | _, _, _ => []

/-- Join parts with commas (inverse direction of `pySplit`). -/
def joinComma : List (List Char) → List Char
  | [] => []
  | [p] => p
  | p :: q :: ps => p ++ ',' :: joinComma (q :: ps)

/-- The label list `"gender, moral"` of the claim about the tally. -/
def genderMoral : List Char := "gender, moral".data

/-- The label `"gender"`. -/
def genderLabel : List Char := "gender".data

/-- The label `"moral"`. -/
def moralLabel : List Char := "moral".data

/-- A minimal response matching the announced schema. -/
def c4Input : List Char :=
  "\x7b\"porcentagem_vies\": 10, \"relatorio_resumo\": \"ok\", \"analise\": [\x7b\"tipo\": \"moral\", \"trecho\": \"t\", \"explicacao\": \"e\", \"sugestao\": \"s\"\x7d], \"texto_reescrito\": \"r\"\x7d".data

/-- The record `c4Input` decodes to. -/
def c4Record : Json :=
  Json.obj [(porcentagemKey, Json.num ['1', '0']),
    (relatorioKey, Json.str ['o', 'k']),
    (analiseKey, Json.arr [Json.obj [(tipoKey, Json.str moralLabel),
      (trechoKey, Json.str ['t']), (explicacaoKey, Json.str ['e']),
      (sugestaoKey, Json.str ['s'])]]),
    (textoKey, Json.str ['r'])]

/-- Leading prose of the wrapped-response example. -/
def c1Pre : List Char := "Here you go: ".data

/-- Interior of the embedded object of the wrapped-response example. -/
def c1Mid : List Char := "\"a\": 1".data

/-- Trailing prose of the wrapped-response example. -/
def c1Post : List Char := " thanks".data

/-- The record embedded in the wrapped-response example. -/
def c1Record : Json := Json.obj [("a".data, Json.num ['1'])]

/-- A decoded record whose single finding has no `tipo` field. -/
def c3Input : List Char := "\x7b\"analise\": [\x7b\x7d]\x7d".data

/-- The record `c3Input` decodes to. -/
def c3Record : Json := Json.obj [(analiseKey, Json.arr [Json.obj []])]

/-- A previously stored analysis record. -/
def c2Prev : Json := Json.obj [("x".data, Json.bool true)]

/-- A response with no brace-delimited substring. -/
def c5NoBrace : List Char := "resposta sem json".data

/-- A response whose extracted brace block is still not valid JSON. -/
def c5Corrupt : List Char := "oops \x7b aspas \x7d".data

/-- A string without `}` has no greedy-match tail. -/
theorem upToLast_none (l : List Char) (h : rbrace ∉ l) : upToLast l = none := by
  induction l with
  | nil => rfl
  | cons c rest ih =>
    simp only [List.mem_cons, not_or] at h
    have h1 : ¬ c = rbrace := fun hc => h.1 hc.symm
    simp [upToLast, ih h.2, h1]

/-- The greedy-match tail of `m ++ '\x7d' ++ post` with a brace-free
`post` ends at that `\x7d`. -/
theorem upToLast_ends (m post : List Char) (hpost : rbrace ∉ post) :
    upToLast (m ++ rbrace :: post) = some (m ++ [rbrace]) := by
  induction m with
  | nil => simp [upToLast, upToLast_none post hpost]
  | cons c m ih => simp [upToLast, ih]

/-- A brace-free prefix does not affect the regex search. -/
theorem extractBraces_skip (pre rest : List Char) (h : ∀ c ∈ pre, ¬ c = lbrace) :
    extractBraces (pre ++ rest) = extractBraces rest := by
  induction pre with
  | nil => rfl
  | cons c p ih =>
    have hc := h c (by simp)
    simp only [List.cons_append, extractBraces, hc, if_false]
    exact ih (fun d hd => h d (by simp [hd]))

/-- The regex search on prose-wrapped input returns exactly the
brace-delimited block when the prose holds no braces. -/
theorem extractBraces_wrapped (pre m post : List Char)
    (hpre : ∀ c ∈ pre, ¬ c = lbrace) (hpost : rbrace ∉ post) :
    extractBraces (pre ++ (lbrace :: m ++ [rbrace]) ++ post) =
      some (lbrace :: m ++ [rbrace]) := by
  have he : pre ++ (lbrace :: m ++ [rbrace]) ++ post =
      pre ++ (lbrace :: (m ++ rbrace :: post)) := by simp
  rw [he, extractBraces_skip pre _ hpre]
  simp [extractBraces, upToLast_ends m post hpost]

/-- Without a `\x7b` followed by a later `\x7d`, the regex search
finds nothing. -/
theorem extractBraces_none (s : List Char) (h : hasBracePair s = false) :
    extractBraces s = none := by
  induction s with
  | nil => rfl
  | cons c rest ih =>
    rw [hasBracePair] at h
    by_cases hc : c = lbrace ∧ rbrace ∈ rest
    · simp [hc] at h
    · rw [if_neg hc] at h
      by_cases h1 : c = lbrace
      · have h2 : rbrace ∉ rest := fun hm => hc ⟨h1, hm⟩
        simp [extractBraces, h1, upToLast_none rest h2, ih h]
      · simp [extractBraces, h1, ih h]

/-- Lines 123-145 deliver exactly the record of the stage the staged
view reaches: both `except json.JSONDecodeError` clauses match the
only exception the decode attempts raise. -/
theorem loadData_val (s : List Char) :
    loadData s = PyRes.val (stageRecord (parseStages s)) := by
  cases hj : jsonLoads s with
  | some d => simp [loadData, parseStages, jsonLoadsPy, stageRecord, tryExcept, hj]
  | none =>
    cases he : extractBraces s with
    | none => simp [loadData, parseStages, jsonLoadsPy, stageRecord, tryExcept, isDecodeErr, hj, he]
    | some t =>
      cases ht : jsonLoads t with
      | some d => simp [loadData, parseStages, jsonLoadsPy, stageRecord, tryExcept, isDecodeErr, hj, he, ht]
      | none => simp [loadData, parseStages, jsonLoadsPy, stageRecord, tryExcept, isDecodeErr, hj, he, ht]

/-- The whole function returns a value for every input: the display
step's record on success, `None` on any caught failure. -/
theorem padr_val (s : List Char) :
    parse_and_display_results s =
      PyRes.val (match stageRecord (parseStages s) with
        | none => none
        | some d =>
          match displayBody d with
          | Except.ok x => some x
          | Except.error _ => none) := by
  rw [parse_and_display_results, loadData_val s]
  cases stageRecord (parseStages s) with
  | none => rfl
  | some d =>
    cases hd : displayBody d with
    | ok x => simp [tryExcept, hd]
    | error e => simp [tryExcept, hd]

/-- A present string value, extracted. -/
theorem isStrVal_spec (o : Option Json) (h : isStrVal o = true) :
    ∃ t, o = some (Json.str t) := by
  cases o with
  | none => exact absurd h (by simp [isStrVal])
  | some v =>
    cases v with
    | str t => exact ⟨t, rfl⟩
    | null => exact absurd h (by simp [isStrVal])
    | bool b => exact absurd h (by simp [isStrVal])
    | num n => exact absurd h (by simp [isStrVal])
    | arr xs => exact absurd h (by simp [isStrVal])
    | obj kvs => exact absurd h (by simp [isStrVal])

/-- A finding with a string `tipo` passes the chart loop's label read. -/
theorem itemBiases_ok (item : Json) (h : itemHasStrTipo item = true) :
    ∃ ls, itemBiases item = Except.ok ls := by
  cases item with
  | obj kvs =>
    obtain ⟨t, ht⟩ := isStrVal_spec _ h
    exact ⟨splitStrip t, by simp [itemBiases, ht]⟩
  | null => exact absurd h (by simp [itemHasStrTipo])
  | bool b => exact absurd h (by simp [itemHasStrTipo])
  | num n => exact absurd h (by simp [itemHasStrTipo])
  | str s => exact absurd h (by simp [itemHasStrTipo])
  | arr xs => exact absurd h (by simp [itemHasStrTipo])

/-- The chart loop succeeds when every finding has a string `tipo`. -/
theorem tallyBiases_ok (items : List Json) (h : items.all itemHasStrTipo = true) :
    ∃ ls, tallyBiases items = Except.ok ls := by
  induction items with
  | nil => exact ⟨[], rfl⟩
  | cons item rest ih =>
    simp only [List.all_cons, Bool.and_eq_true] at h
    obtain ⟨l1, h1⟩ := itemBiases_ok item h.1
    obtain ⟨l2, h2⟩ := ih h.2
    exact ⟨l1 ++ l2, by simp [tallyBiases, h1, h2]⟩

/-- A finding with a string `tipo` renders in the detailed loop. -/
theorem detailItem_ok (item : Json) (h : itemHasStrTipo item = true) :
    detailItem item = Except.ok () := by
  cases item with
  | obj kvs =>
    obtain ⟨t, ht⟩ := isStrVal_spec _ h
    simp [detailItem, ht]
  | null => exact absurd h (by simp [itemHasStrTipo])
  | bool b => exact absurd h (by simp [itemHasStrTipo])
  | num n => exact absurd h (by simp [itemHasStrTipo])
  | str s => exact absurd h (by simp [itemHasStrTipo])
  | arr xs => exact absurd h (by simp [itemHasStrTipo])

/-- The detailed loop succeeds when every finding has a string `tipo`. -/
theorem detailLoop_ok (items : List Json) (h : items.all itemHasStrTipo = true) :
    detailLoop items = Except.ok () := by
  induction items with
  | nil => rfl
  | cons item rest ih =>
    simp only [List.all_cons, Bool.and_eq_true] at h
    simp [detailLoop, detailItem_ok item h.1, ih h.2]

/-- The display pass succeeds on any object whose `analise` list (or
its default `[]`) holds only findings with a string `tipo` — every
other field may be absent or of any shape. -/
theorem displayBody_ok (kvs : List (List Char × Json)) (items : List Json)
    (ha : (objGet kvs analiseKey).getD (Json.arr []) = Json.arr items)
    (h : items.all itemHasStrTipo = true) :
    displayBody (Json.obj kvs) = Except.ok (Json.obj kvs) := by
  rw [displayBody, ha]
  cases items with
  | nil => simp [truthy]
  | cons item rest =>
    obtain ⟨ls, hls⟩ := tallyBiases_ok (item :: rest) h
    simp [truthy, iterItems, hls, detailLoop_ok (item :: rest) h]

/-- A schema-shaped finding in particular has a string `tipo`. -/
theorem findingMatches_tipo (j : Json) (h : findingMatches j = true) :
    itemHasStrTipo j = true := by
  cases j with
  | obj kvs =>
    simp only [findingMatches, Bool.and_eq_true] at h
    simp [itemHasStrTipo, h.1.1.1]
  | null => exact absurd h (by simp [findingMatches])
  | bool b => exact absurd h (by simp [findingMatches])
  | num n => exact absurd h (by simp [findingMatches])
  | str s => exact absurd h (by simp [findingMatches])
  | arr xs => exact absurd h (by simp [findingMatches])

/-- A schema-shaped record has an `analise` list of schema findings. -/
theorem matchesSchema_analise (kvs : List (List Char × Json))
    (h : matchesSchema (Json.obj kvs) = true) :
    ∃ items, objGet kvs analiseKey = some (Json.arr items) ∧
      items.all findingMatches = true := by
  rw [matchesSchema] at h
  cases hg : objGet kvs analiseKey with
  | none => rw [hg] at h; simp at h
  | some v =>
    cases v with
    | arr items =>
      rw [hg] at h
      simp only [Bool.and_eq_true] at h
      exact ⟨items, rfl, h.1.2⟩
    | null => rw [hg] at h; simp at h
    | bool b => rw [hg] at h; simp at h
    | num n => rw [hg] at h; simp at h
    | str s => rw [hg] at h; simp at h
    | obj kvs2 => rw [hg] at h; simp at h

/-- The display pass succeeds on every schema-shaped record and
returns it unchanged. -/
theorem displayBody_ok_schema (d : Json) (h : matchesSchema d = true) :
    displayBody d = Except.ok d := by
  cases d with
  | obj kvs =>
    obtain ⟨items, hg, hall⟩ := matchesSchema_analise kvs h
    have hall2 : items.all itemHasStrTipo = true := by
      rw [List.all_eq_true] at hall ⊢
      exact fun x hx => findingMatches_tipo x (hall x hx)
    exact displayBody_ok kvs items (by simp [hg]) hall2
  | null => exact absurd h (by simp [matchesSchema])
  | bool b => exact absurd h (by simp [matchesSchema])
  | num n => exact absurd h (by simp [matchesSchema])
  | str s => exact absurd h (by simp [matchesSchema])
  | arr xs => exact absurd h (by simp [matchesSchema])

/-- The chart loop distributes over list append. -/
theorem tallyBiases_append (xs ys : List Json) (l1 l2 : List (List Char))
    (h1 : tallyBiases xs = Except.ok l1) (h2 : tallyBiases ys = Except.ok l2) :
    tallyBiases (xs ++ ys) = Except.ok (l1 ++ l2) := by
  induction xs generalizing l1 with
  | nil =>
    rw [tallyBiases] at h1
    cases h1
    simpa using h2
  | cons item rest ih =>
    rw [tallyBiases] at h1
    cases hb : itemBiases item with
    | error e => rw [hb] at h1; cases h1
    | ok ls =>
      rw [hb] at h1
      cases ht : tallyBiases rest with
      | error e => rw [ht] at h1; cases h1
      | ok more =>
        rw [ht] at h1
        cases h1
        simp only [List.cons_append, tallyBiases, hb, List.append_eq]
        rw [ih more ht]
        simp

/-- `split(',')` of a comma-free string is the whole string. -/
theorem pySplit_noComma (p : List Char) (h : noComma p = true) :
    pySplit p = [p] := by
  induction p with
  | nil => rfl
  | cons c rest ih =>
    simp only [noComma, List.mem_cons, not_or, decide_eq_true_eq] at h
    have hc : ¬ c = ',' := fun hcc => h.1 hcc.symm
    have hr : noComma rest = true := by simpa [noComma] using h.2
    simp [pySplit, hc, ih hr]

/-- `split(',')` peels a comma-free head part off at the first comma. -/
theorem pySplit_comma (p rest : List Char) (h : noComma p = true) :
    pySplit (p ++ ',' :: rest) = p :: pySplit rest := by
  induction p with
  | nil => simp [pySplit]
  | cons c q ih =>
    simp only [noComma, List.mem_cons, not_or, decide_eq_true_eq] at h
    have hc : ¬ c = ',' := fun hcc => h.1 hcc.symm
    have hq : noComma q = true := by simpa [noComma] using h.2
    simp [pySplit, hc, ih hq]

/-- Whitespace characters are not commas. -/
theorem allWs_noComma (l : List Char) (h : allWs l = true) : noComma l = true := by
  simp only [allWs, List.all_eq_true] at h
  simp only [noComma, decide_eq_true_eq]
  intro hm
  have := h ',' hm
  simp [pyWs] at this

/-- Comma-freeness is preserved by append. -/
theorem noComma_append (a b : List Char) (ha : noComma a = true) (hb : noComma b = true) :
    noComma (a ++ b) = true := by
  simp only [noComma, decide_eq_true_eq, List.mem_append, not_or] at ha hb ⊢
  exact ⟨ha, hb⟩

/-- An all-whitespace string is dropped whole by `dropWhile`. -/
theorem dropWhile_ws_nil (l : List Char) (h : allWs l = true) :
    l.dropWhile pyWs = [] := by
  induction l with
  | nil => rfl
  | cons c rest ih =>
    simp only [allWs, List.all_cons, Bool.and_eq_true] at h
    simp [List.dropWhile_cons, h.1, ih (by simp [allWs, h.2])]

/-- `strip` ignores all-whitespace padding on both sides. -/
theorem pyStrip_pad (l p r : List Char) (hl : allWs l = true) (hr : allWs r = true) :
    pyStrip (l ++ p ++ r) = pyStrip p := by
  have hlall : ∀ a ∈ l, pyWs a = true := by
    simpa [allWs, List.all_eq_true] using hl
  have step1 : (l ++ p ++ r).dropWhile pyWs = (p ++ r).dropWhile pyWs := by
    rw [List.append_assoc, List.dropWhile_append]
    simp [dropWhile_ws_nil l hl]
  rw [pyStrip, step1]
  cases hp : p.dropWhile pyWs with
  | nil =>
    have : (p ++ r).dropWhile pyWs = [] := by
      rw [List.dropWhile_append, hp]
      simp [dropWhile_ws_nil r hr]
    rw [this]
    simp [pyStrip, hp]
  | cons c cs =>
    have : (p ++ r).dropWhile pyWs = (c :: cs) ++ r := by
      rw [List.dropWhile_append, hp]
      simp
    rw [this, pyStrip, hp]
    have hrev : allWs r.reverse = true := by
      simpa [allWs] using hr
    rw [List.reverse_append, List.dropWhile_append]
    simp [dropWhile_ws_nil r.reverse hrev]

/-- Splitting a comma-joined list of comma-free parts, each padded with
arbitrary whitespace, and stripping each piece yields exactly the
stripped parts: the tally labels do not depend on the padding. -/
theorem splitStrip_padded (parts : List (List Char)) :
    ∀ lpads rpads : List (List Char),
    lpads.length = parts.length → rpads.length = parts.length →
    parts ≠ [] →
    (∀ p ∈ lpads, allWs p = true) → (∀ p ∈ rpads, allWs p = true) →
    (∀ p ∈ parts, noComma p = true) →
    splitStrip (joinComma (pad3 lpads parts rpads)) = parts.map pyStrip := by
  induction parts with
  | nil => intro lpads rpads _ _ hne _ _ _; exact absurd rfl hne
  | cons p ps ih =>
    intro lpads rpads hlen1 hlen2 _ hws1 hws2 hnc
    cases lpads with
    | nil => simp at hlen1
    | cons l ls =>
      cases rpads with
      | nil => simp at hlen2
      | cons r rs =>
        have hlp : allWs l = true := hws1 l (by simp)
        have hrp : allWs r = true := hws2 r (by simp)
        have hpc : noComma p = true := hnc p (by simp)
        have hpad : noComma (l ++ p ++ r) = true :=
          noComma_append _ _ (noComma_append _ _ (allWs_noComma l hlp) hpc)
            (allWs_noComma r hrp)
        cases ps with
        | nil =>
          cases ls with
          | cons a b => simp at hlen1
          | nil =>
            cases rs with
            | cons a b => simp at hlen2
            | nil =>
              simp only [pad3, joinComma, splitStrip]
              rw [pySplit_noComma _ hpad]
              simp only [List.map_cons, List.map_nil]
              rw [pyStrip_pad l p r hlp hrp]
        | cons q qs =>
          cases ls with
          | nil => simp at hlen1
          | cons l2 ls2 =>
            cases rs with
            | nil => simp at hlen2
            | cons r2 rs2 =>
              have hrec := ih (l2 :: ls2) (r2 :: rs2)
                (by simpa using hlen1) (by simpa using hlen2) (by simp)
                (fun x hx => hws1 x (List.mem_cons_of_mem _ hx))
                (fun x hx => hws2 x (List.mem_cons_of_mem _ hx))
                (fun x hx => hnc x (List.mem_cons_of_mem _ hx))
              simp only [pad3, joinComma, splitStrip] at hrec ⊢
              rw [pySplit_comma _ _ hpad]
              simp only [List.map_cons]
              rw [pyStrip_pad l p r hlp hrp, hrec]
              simp

/-- Staged view, first stage. -/
theorem parseStages_eq_stage1 (s : List Char) (v : Json) (h : jsonLoads s = some v) :
    parseStages s = ParseOutcome.stage1 v := by
  unfold parseStages
  rw [h]

/-- Staged view, second stage. -/
theorem parseStages_eq_stage2 (s t : List Char) (v : Json) (h1 : jsonLoads s = none)
    (h2 : extractBraces s = some t) (h3 : jsonLoads t = some v) :
    parseStages s = ParseOutcome.stage2 v := by
  unfold parseStages
  rw [h1, h2]
  dsimp only
  rw [h3]

/-- Staged view, corrupted extract. -/
theorem parseStages_eq_corrupted (s t : List Char) (h1 : jsonLoads s = none)
    (h2 : extractBraces s = some t) (h3 : jsonLoads t = none) :
    parseStages s = ParseOutcome.corrupted := by
  unfold parseStages
  rw [h1, h2]
  dsimp only
  rw [h3]

/-- Staged view, no brace block found. -/
theorem parseStages_eq_noJson (s : List Char) (h1 : jsonLoads s = none)
    (h2 : extractBraces s = none) : parseStages s = ParseOutcome.noJson := by
  unfold parseStages
  rw [h1, h2]

/-- C1: a raw response that is not itself valid JSON but wraps a single
valid JSON object between a `\x7b` and a `\x7d` inside prose holding no
other braces is settled by the Response Parser's second stage: the
regex search finds exactly the brace-delimited substring, its decode
succeeds, and lines 123-145 return the embedded record. -/
theorem c1_prose_wrapped_stage2 (pre m post : List Char) (v : Json)
    (hnot : jsonLoads (pre ++ (lbrace :: m ++ [rbrace]) ++ post) = none)
    (hdec : jsonLoads (lbrace :: m ++ [rbrace]) = some v)
    (hobj : ∃ kvs, v = Json.obj kvs)
    (hpre : ∀ c ∈ pre, ¬ c = lbrace ∧ ¬ c = rbrace)
    (hpost : ∀ c ∈ post, ¬ c = lbrace ∧ ¬ c = rbrace) :
    extractBraces (pre ++ (lbrace :: m ++ [rbrace]) ++ post) =
      some (lbrace :: m ++ [rbrace]) ∧
    parseStages (pre ++ (lbrace :: m ++ [rbrace]) ++ post) = ParseOutcome.stage2 v ∧
    loadData (pre ++ (lbrace :: m ++ [rbrace]) ++ post) = PyRes.val (some v) := by
  have hext : extractBraces (pre ++ (lbrace :: m ++ [rbrace]) ++ post) =
      some (lbrace :: m ++ [rbrace]) :=
    extractBraces_wrapped pre m post (fun c hc => (hpre c hc).1)
      (fun hm => (hpost rbrace hm).2 rfl)
  have hst : parseStages (pre ++ (lbrace :: m ++ [rbrace]) ++ post) =
      ParseOutcome.stage2 v :=
    parseStages_eq_stage2 _ _ v hnot hext hdec
  refine ⟨hext, hst, ?_⟩
  rw [loadData_val, hst]
  rfl

/-- Witness for C1: the spec's own example shape, prose around `\x7b"a": 1\x7d`. -/
theorem c1_witness :
    extractBraces (c1Pre ++ (lbrace :: c1Mid ++ [rbrace]) ++ c1Post) =
      some (lbrace :: c1Mid ++ [rbrace]) ∧
    parseStages (c1Pre ++ (lbrace :: c1Mid ++ [rbrace]) ++ c1Post) =
      ParseOutcome.stage2 c1Record ∧
    loadData (c1Pre ++ (lbrace :: c1Mid ++ [rbrace]) ++ c1Post) =
      PyRes.val (some c1Record) :=
  c1_prose_wrapped_stage2 c1Pre c1Mid c1Post c1Record rfl rfl ⟨_, rfl⟩
    (by decide) (by decide)

/-- C4: a response that is valid JSON matching the announced schema is
settled by the first, strict whole-string decode — the staged view
never reaches the fallback — and the function returns that record. -/
theorem c4_strict_decode (s : List Char) (v : Json)
    (h : jsonLoads s = some v) (hs : matchesSchema v = true) :
    parseStages s = ParseOutcome.stage1 v ∧
    parse_and_display_results s = PyRes.val (some v) := by
  have hst : parseStages s = ParseOutcome.stage1 v := parseStages_eq_stage1 s v h
  refine ⟨hst, ?_⟩
  rw [padr_val, hst]
  simp [stageRecord, displayBody_ok_schema v hs]

set_option maxRecDepth 8000 in
/-- Witness for C4: a concrete minimal schema-shaped response. -/
theorem c4_witness :
    jsonLoads c4Input = some c4Record ∧ matchesSchema c4Record = true ∧
    parseStages c4Input = ParseOutcome.stage1 c4Record ∧
    parse_and_display_results c4Input = PyRes.val (some c4Record) := by
  have h1 : jsonLoads c4Input = some c4Record := rfl
  have h2 : matchesSchema c4Record = true := rfl
  obtain ⟨h3, h4⟩ := c4_strict_decode c4Input c4Record h1 h2
  exact ⟨h1, h2, h3, h4⟩

/-- C5: a response failing the strict decode with no `\x7b` followed by
a later `\x7d`, and likewise one whose extracted brace block fails to
decode, ends in terminal failure: lines 123-145 deliver no record and
the whole function returns `None`. -/
theorem c5_terminal_failure (s t : List Char) :
    (jsonLoads s = none → hasBracePair s = false →
      loadData s = PyRes.val none ∧
      parse_and_display_results s = PyRes.val none) ∧
    (jsonLoads s = none → extractBraces s = some t → jsonLoads t = none →
      loadData s = PyRes.val none ∧
      parse_and_display_results s = PyRes.val none) := by
  constructor
  · intro hj hb
    have hst : parseStages s = ParseOutcome.noJson :=
      parseStages_eq_noJson s hj (extractBraces_none s hb)
    constructor
    · rw [loadData_val, hst]; rfl
    · rw [padr_val, hst]; rfl
  · intro hj he ht
    have hst : parseStages s = ParseOutcome.corrupted :=
      parseStages_eq_corrupted s t hj he ht
    constructor
    · rw [loadData_val, hst]; rfl
    · rw [padr_val, hst]; rfl

/-- Witness for C5: a braceless response, and one whose extracted
brace block is still invalid. -/
theorem c5_witness :
    (loadData c5NoBrace = PyRes.val none ∧
      parse_and_display_results c5NoBrace = PyRes.val none) ∧
    (loadData c5Corrupt = PyRes.val none ∧
      parse_and_display_results c5Corrupt = PyRes.val none) :=
  ⟨(c5_terminal_failure c5NoBrace []).1 rfl rfl,
   (c5_terminal_failure c5Corrupt (c5Corrupt.drop 5)).2 rfl rfl rfl⟩

/-- C9: `parse_and_display_results` is total at its interface: for
every input it returns a value (a record or `None`), never a
propagating exception — the decode attempts raise only
`json.JSONDecodeError`, matched by both `except` clauses, and any
rendering error is caught by the broad `except Exception`. -/
theorem c9_total (s : List Char) :
    ∃ r : Option Json, parse_and_display_results s = PyRes.val r := by
  rw [padr_val]
  exact ⟨_, rfl⟩

/-- C2 fails as stated: an analyze action whose outbound call fails
does lose the previously stored record — line 263 overwrites it with
`None` before the call, so after the failed action the session holds
`None`, not the old record. -/
theorem c2_counterexample :
    analyzeAction (some c2Prev) none = none ∧ some c2Prev ≠ (none : Option Json) :=
  ⟨rfl, by simp⟩

/-- C2 (amended): the record stored by an analyze action never depends
on the previously stored one — line 263 clears it first — and whenever
the outbound call fails (`None`), returns an empty (falsy) string, or
returns a non-empty response whose parse fails (delivers no record),
the session is left holding `None`: the previous record is retained
only until the next analyze action begins, not across a failed one. -/
theorem c2_amended :
    (∀ prev1 prev2 call, analyzeAction prev1 call = analyzeAction prev2 call) ∧
    (∀ prev, analyzeAction prev none = none) ∧
    (∀ prev, analyzeAction prev (some []) = none) ∧
    (∀ prev s, ¬ s = [] → pyResultValue (parse_and_display_results s) = none →
      analyzeAction prev (some s) = none) := by
  refine ⟨fun _ _ _ => rfl, fun _ => rfl, fun _ => rfl, ?_⟩
  intro prev s hs hp
  cases s with
  | nil => exact absurd rfl hs
  | cons c cs => simpa [analyzeAction] using hp

/-- Witness for C2 (amended): a stored record survives neither a
failed call nor a non-empty response whose parse fails. -/
theorem c2_amended_witness :
    analyzeAction (some c2Prev) none = none ∧
    analyzeAction (some c2Prev) (some c5NoBrace) = none :=
  ⟨c2_amended.2.1 (some c2Prev),
   c2_amended.2.2.2 (some c2Prev) c5NoBrace (by decide) rfl⟩

/-- C3 fails as stated: a decoded record whose finding lacks the
`tipo` field does not render with a default — line 194 reads
`item['tipo']` directly, the `KeyError` is caught broadly, and the
record is discarded (`None` returned) instead of being rendered. -/
theorem c3_counterexample :
    jsonLoads c3Input = some c3Record ∧
    detailItem (Json.obj []) = Except.error PyExn.keyError ∧
    displayBody c3Record = Except.error PyExn.keyError ∧
    parse_and_display_results c3Input = PyRes.val none :=
  ⟨rfl, rfl, rfl, rfl⟩

/-- C3 (amended): absent top-level fields (percentage, summary,
rewritten document) and absent `trecho`/`explicacao`/`sugestao` fields
of findings are all defaulted at render time, and rendering succeeds;
but the `tipo` field of a finding is only defaulted in the tally —
the detailed-findings loop requires it present (and a string), and a
finding without it makes rendering fail and the record be discarded. -/
theorem c3_amended (items : List Json) (h : items.all itemHasStrTipo = true) :
    displayBody (Json.obj []) = Except.ok (Json.obj []) ∧
    displayBody (Json.obj [(analiseKey, Json.arr items)]) =
      Except.ok (Json.obj [(analiseKey, Json.arr items)]) := by
  refine ⟨rfl, ?_⟩
  exact displayBody_ok [(analiseKey, Json.arr items)] items (by simp [objGet]) h

/-- Witness for C3 (amended): a record with only an `analise` list
whose single finding has only a `tipo` — every other field absent. -/
theorem c3_amended_witness :
    displayBody (Json.obj []) = Except.ok (Json.obj []) ∧
    displayBody (Json.obj [(analiseKey, Json.arr [Json.obj [(tipoKey, Json.str moralLabel)]])]) =
      Except.ok (Json.obj [(analiseKey, Json.arr [Json.obj [(tipoKey, Json.str moralLabel)]])]) :=
  c3_amended [Json.obj [(tipoKey, Json.str moralLabel)]] rfl

/-- C6: the tally splits a comma-separated `tipo` into individual
labels before counting: a finding with `tipo` `"gender, moral"`
contributes the two labels `"gender"` and `"moral"` to the collected
label list, so each of the two counts increments by one — two
increments, not one. -/
theorem c6_comma_split (kvs : List (List Char × Json)) (pre post : List Json)
    (l1 l2 : List (List Char))
    (h : objGet kvs tipoKey = some (Json.str genderMoral))
    (h1 : tallyBiases pre = Except.ok l1) (h2 : tallyBiases post = Except.ok l2) :
    itemBiases (Json.obj kvs) = Except.ok [genderLabel, moralLabel] ∧
    tallyBiases (pre ++ Json.obj kvs :: post) =
      Except.ok (l1 ++ genderLabel :: moralLabel :: l2) ∧
    (l1 ++ genderLabel :: moralLabel :: l2).count genderLabel =
      l1.count genderLabel + l2.count genderLabel + 1 ∧
    (l1 ++ genderLabel :: moralLabel :: l2).count moralLabel =
      l1.count moralLabel + l2.count moralLabel + 1 := by
  have hib : itemBiases (Json.obj kvs) = Except.ok [genderLabel, moralLabel] := by
    simp only [itemBiases, h]
    rfl
  have hmid : tallyBiases (Json.obj kvs :: post) =
      Except.ok (genderLabel :: moralLabel :: l2) := by
    simp [tallyBiases, hib, h2]
  have happ := tallyBiases_append pre (Json.obj kvs :: post) l1
    (genderLabel :: moralLabel :: l2) h1 hmid
  have e1 : (genderLabel == genderLabel) = true := by decide
  have e2 : (moralLabel == genderLabel) = false := by decide
  have e3 : (genderLabel == moralLabel) = false := by decide
  have e4 : (moralLabel == moralLabel) = true := by decide
  refine ⟨hib, happ, ?_, ?_⟩
  · simp [List.count_append, List.count_cons, e1, e2]
    omega
  · simp [List.count_append, List.count_cons, e3, e4]
    omega

/-- Witness for C6: the single finding `\x7b"tipo": "gender, moral"\x7d`. -/
theorem c6_witness :
    itemBiases (Json.obj [(tipoKey, Json.str genderMoral)]) =
      Except.ok [genderLabel, moralLabel] ∧
    tallyBiases ([] ++ Json.obj [(tipoKey, Json.str genderMoral)] :: []) =
      Except.ok ([] ++ genderLabel :: moralLabel :: []) ∧
    (([] : List (List Char)) ++ genderLabel :: moralLabel :: []).count genderLabel =
      ([] : List (List Char)).count genderLabel +
        ([] : List (List Char)).count genderLabel + 1 ∧
    (([] : List (List Char)) ++ genderLabel :: moralLabel :: []).count moralLabel =
      ([] : List (List Char)).count moralLabel +
        ([] : List (List Char)).count moralLabel + 1 :=
  c6_comma_split [(tipoKey, Json.str genderMoral)] [] [] [] [] rfl rfl rfl

/-- C7: one activation of the save-as-PDF control makes the print flag
true within that same render cycle — during which the print CSS and
the delayed print trigger are both emitted — and the flag is reset to
false before the cycle ends; starting from the initial false flag, a
sequence of cycles emits exactly one print trigger per clicked cycle
and ends every cycle with the flag false. -/
theorem c7_print_once :
    (∀ p, printBlock p true =
      { cssEmitted := true, triggerEmitted := true, printingAfter := false }) ∧
    printBlock false false =
      { cssEmitted := false, triggerEmitted := false, printingAfter := false } ∧
    (∀ clicks, printTrace false clicks = (clicks.count true, false)) := by
  refine ⟨fun p => rfl, rfl, fun clicks => ?_⟩
  induction clicks with
  | nil => rfl
  | cons c cs ih =>
    cases c
    · simpa [printTrace, printBlock, List.count_cons] using ih
    · simp [printTrace, printBlock, List.count_cons, ih, Nat.add_comm]

/-- C8: in an analysis cycle whose extracted text is empty, the flow
warns the user, does not offer the analyze action at all and never
invokes the outbound model call, whatever the user tries to click. -/
theorem c8_empty_text :
    ∀ clicked, uploadFlow [] clicked =
      { warnedEmpty := true, analyzeOffered := false, geminiCalled := false } :=
  fun _ => rfl

/-- C10: the tally is invariant under whitespace around the
comma-separated labels — splitting the comma-join of comma-free parts
padded by arbitrary whitespace and stripping yields exactly the
stripped parts, so any whitespace variants of the same labels (such as
`"gender, moral"` and `"gender,moral"`) produce the same label list
and hence identical per-label counts — and a finding with no `tipo`
field is tallied under the single label `"desconhecido"`. -/
theorem c10_ws_invariant (parts lpads rpads : List (List Char))
    (hlen1 : lpads.length = parts.length) (hlen2 : rpads.length = parts.length)
    (hne : parts ≠ [])
    (hws1 : ∀ p ∈ lpads, allWs p = true) (hws2 : ∀ p ∈ rpads, allWs p = true)
    (hnc : ∀ p ∈ parts, noComma p = true) :
    splitStrip (joinComma (pad3 lpads parts rpads)) = parts.map pyStrip ∧
    (∀ kvs, objGet kvs tipoKey = none →
      itemBiases (Json.obj kvs) = Except.ok [desconhecidoLabel]) := by
  refine ⟨splitStrip_padded parts lpads rpads hlen1 hlen2 hne hws1 hws2 hnc, ?_⟩
  intro kvs hk
  simp only [itemBiases, hk]
  rfl

/-- Witness for C10: the parts `"gender"`, `"moral"` padded as in
`"gender, moral"`, and a finding with no `tipo` at all. -/
theorem c10_witness :
    splitStrip (joinComma (pad3 [[], [' ']] [genderLabel, moralLabel] [[], []])) =
      [genderLabel, moralLabel] ∧
    itemBiases (Json.obj []) = Except.ok [desconhecidoLabel] := by
  have h := c10_ws_invariant [genderLabel, moralLabel] [[], [' ']] [[], []]
    rfl rfl (by decide) (by decide) (by decide) (by decide)
  exact ⟨h.1.trans (by rfl), h.2 [] rfl⟩
